import Mathlib

/-!
Verification of the covjsondask module: a reader that parses a tiled
CoverageJSON document and exposes each (parameter, tileset) pair as a lazily
evaluated chunked (dask) array.

The embedding below mirrors `src/covjsondask.py`:

* `get_data`  — the byte fetcher (`requests.get(location).content`), modelled
  over an abstract HTTP capability;
* `get_dask_arrays` — the tiled-array builder: per-axis chunk sizes, result
  keys, the task graph, and the dictionary of dask arrays;
* `get_tile`  — the tile loader: URL template substitution (Python
  `str.replace`), fetch, decode, and row-major reshape (numpy `reshape`).

Machine integers are modelled as `Nat` (the document values are JSON
non-negative integers in all relevant positions); Python `dict` access that
can raise `KeyError`, integer division that can raise `ZeroDivisionError`,
and numpy reshape failure are modelled with `Option` / `Except`.
-/

/-- Transport-level failures of the HTTP capability (`requests.get`). -/
inductive TransportError where
  | connectionFailure : TransportError
  | dnsFailure : TransportError
  | nonSuccessStatus : Nat → TransportError
deriving Repr, DecidableEq

/-- An HTTP response as seen by the byte fetcher: only `.content` is used. -/
structure Response where
  content : List Nat
deriving Repr, DecidableEq

/-- Embedding of `get_data(location)`: `requests.get(location).content`.
The HTTP library is an external collaborator, so it is passed in as a
capability `httpGet`; `get_data` merely projects the body out of a successful
response and leaves any transport error untouched. -/
def get_data (httpGet : String → Except TransportError Response)
    (location : String) : Except TransportError (List Nat) :=
  match httpGet location with
  | .error e => .error e
  | .ok r => .ok r.content

/-- Helper for `pyReplace`: if `pat` is a prefix of `s`, return the rest of
`s` after that prefix, else `none`. -/
def dropPat : List Char → List Char → Option (List Char)
  | [], s => some s
  | _ :: _, [] => none
  | p :: ps, c :: cs => if p = c then dropPat ps cs else none

/-- Fuel-indexed scan implementing Python `str.replace`: walk the string left
to right; at each position, if the pattern matches, emit the replacement and
skip past the match (non-overlapping), otherwise emit the character. -/
def replaceFuel (pat rep : List Char) : Nat → List Char → List Char
  | 0, s => s
  | _ + 1, [] => []
  | fuel + 1, c :: cs =>
    match dropPat pat (c :: cs) with
    | some rest => rep ++ replaceFuel pat rep fuel rest
    | none => c :: replaceFuel pat rep fuel cs

/-- Embedding of Python `s.replace(pat, rep)` for the non-empty patterns the
tile loader uses (patterns are always of the form `"\x7b" + axis + "\x7d"`).
Each step of `replaceFuel` consumes at least one character of `s` when `pat`
is non-empty, so `s.length + 1` units of fuel suffice. -/
def pyReplace (s pat rep : String) : String :=
  if pat.toList.isEmpty then s
  else (replaceFuel pat.toList rep.toList (s.toList.length + 1) s.toList).asString

/-- Embedding of the URL-building loop at the top of `get_tile`:
`for axis, tile_index in zip(axis_names, tile_indices):
   url_template = url_template.replace('\x7b' + axis + '\x7d', str(tile_index))`. -/
def buildUrl (url_template : String) (axis_names : List String)
    (tile_indices : List Nat) : String :=
  (axis_names.zip tile_indices).foldl
    (fun t p => pyReplace t ("\x7b" ++ p.1 ++ "\x7d") (toString p.2)) url_template

/-- An n-dimensional numeric block, the result of numpy `reshape`: nested
lists down to a flat list of values along the last axis. -/
inductive NDA (α : Type) where
  | vals : List α → NDA α
  | nest : List (NDA α) → NDA α
deriving Repr

/-- Split a list into `n` consecutive chunks of `k` elements each
(row-major grouping for one reshape level). -/
def splitInto (n k : Nat) (l : List α) : List (List α) :=
  match n with
  | 0 => []
  | m + 1 => l.take k :: splitInto m k (l.drop k)

/-- Recursive core of numpy's row-major `reshape`: the first axis varies
slowest, so a shape `n :: ns` groups the flat values into `n` blocks of
`ns.prod` values each and reshapes each block with the remaining axes. -/
def reshapeAux : List Nat → List α → NDA α
  | [], vs => NDA.vals vs
  | [_], vs => NDA.vals vs
  | n :: ns, vs => NDA.nest ((splitInto n ns.prod vs).map (reshapeAux ns))

/-- Embedding of `np.array(values).reshape(shape)` for a flat list of values
and a shape of non-negative extents: numpy raises a `ValueError` exactly when
the declared shape does not account for the number of values. -/
def reshape (shape : List Nat) (values : List α) : Option (NDA α) :=
  if shape.prod = values.length then some (reshapeAux shape values) else none

mutual
/-- Row-major flattening of an n-dimensional block (used to state that
`reshape` is row-major: flattening recovers the original value list). -/
def ndFlatten : NDA α → List α
  | .vals vs => vs
  | .nest xs => ndFlattenList xs

/-- Flatten a list of blocks in order, concatenating their flattenings. -/
def ndFlattenList : List (NDA α) → List α
  | [] => []
  | x :: xs => ndFlatten x ++ ndFlattenList xs
end

/-- A decoded tile document: a flat value list and a declared shape. -/
structure TileDoc where
  values : List Int
  shape : List Nat
deriving Repr, DecidableEq

/-- Errors surfaced by the tile loader. -/
inductive TileError where
  | transport : TransportError → TileError
  | shapeMismatch : TileError
deriving Repr, DecidableEq

/-- Embedding of `get_tile(url_template, axis_names, tile_indices)`: build
the URL by placeholder substitution, fetch and decode the tile document
through the capability `fetchDoc`, and reshape its flat value list to its
declared shape. -/
def get_tile (fetchDoc : String → Except TransportError TileDoc)
    (url_template : String) (axis_names : List String)
    (tile_indices : List Nat) : Except TileError (NDA Int) :=
  match fetchDoc (buildUrl url_template axis_names tile_indices) with
  | .error e => .error (TileError.transport e)
  | .ok doc =>
    match reshape doc.shape doc.values with
    | none => .error TileError.shapeMismatch
    | some block => .ok block

/-- The tile-loading function object stored as the first component of every
task-graph value (the Python graph stores the function `get_tile` itself). -/
inductive TileFn where
  | get_tile : TileFn
deriving Repr, DecidableEq

/-- A task-graph value: `(get_tile, p_tileset['urlTemplate'], p_axis_names, coord)`. -/
structure TaskValue where
  fn : TileFn
  urlTemplate : String
  axisNames : List String
  coord : List Nat
deriving Repr, DecidableEq

/-- A tileset descriptor: `tileShape` entries are either an integer tile size
or `None` (the axis is not split), plus the URL template. -/
structure TileSet where
  tileShape : List (Option Nat)
  urlTemplate : String
deriving Repr, DecidableEq

/-- The range descriptor of one parameter: `axisNames`, `shape`, `tileSets`. -/
structure RangeDesc where
  axisNames : List String
  shape : List Nat
  tileSets : List TileSet
deriving Repr, DecidableEq

/-- The parsed coverage document. The top-level `parameters` and `ranges`
keys may be absent (`none`), in which case Python raises `KeyError` at the
point of access; `parameters` is kept as the list of its keys in iteration
order, and `ranges` as an association list. -/
structure CoverageDoc where
  parameters : Option (List String)
  ranges : Option (List (String × RangeDesc))
deriving Repr, DecidableEq

/-- Build-time failures: Python `KeyError` (with the missing key) and
`ZeroDivisionError` from the per-axis chunk computation. -/
inductive BuildError where
  | keyError : String → BuildError
  | zeroDivision : BuildError
deriving Repr, DecidableEq

/-- The object `da.Array(dask_graph, param, tuple(axes_tile_sizes))` is
constructed from: the task graph, the parameter name, and the per-axis
chunk-size sequences. -/
structure DaskArray where
  graph : List ((String × List Nat) × TaskValue)
  name : String
  chunks : List (List Nat)
deriving Repr, DecidableEq

/-- The `axes_str` accumulation: concatenate the names of the axes whose
`tileShape` entry is not `None`, iterating `zip(tile_shape, p_axis_names)`. -/
def axesStr : List (Option Nat) → List String → String
  | some _ :: ts, n :: ns => n ++ axesStr ts ns
  | none :: ts, _ :: ns => axesStr ts ns
  | _, _ => ""

/-- The result key for one (parameter, tileset) pair:
`param + "-untiled"` when `axes_str` is empty, else
`param + "-" + axes_str + "_tiling"`. -/
def daKey (param : String) (tileShape : List (Option Nat))
    (axisNames : List String) : String :=
  let s := axesStr tileShape axisNames
  if s.length = 0 then param ++ "-untiled" else param ++ "-" ++ s ++ "_tiling"

/-- The chunk-size sequence of one axis once the effective tile size is
known: `n_full_tiles * [axis_tile_size]` followed by the final tile when
`axis_size % axis_tile_size > 0` (Python 2 `/` on ints is floor division). -/
def chunkSizes (axis_size axis_tile_size : Nat) : List Nat :=
  List.replicate (axis_size / axis_tile_size) axis_tile_size ++
    (if 0 < axis_size % axis_tile_size then [axis_size % axis_tile_size] else [])

/-- One axis of the builder's chunk computation: a `None` tile size means the
entire axis is in each tile (`axis_tile_size = axis_size`); a zero effective
tile size makes Python raise `ZeroDivisionError`, modelled as `none`. -/
def axisChunks (axis_size : Nat) (entry : Option Nat) : Option (List Nat) :=
  let t := match entry with | none => axis_size | some t => t
  if t = 0 then none else some (chunkSizes axis_size t)

/-- The loop over `zip(p_shape, tile_shape)` computing `axes_tile_sizes`,
stopping at the first `ZeroDivisionError`. -/
def axesTileSizesGo : List (Nat × Option Nat) → Except BuildError (List (List Nat))
  | [] => .ok []
  | (e, t) :: rest =>
    match axisChunks e t with
    | none => .error BuildError.zeroDivision
    | some cs =>
      match axesTileSizesGo rest with
      | .error err => .error err
      | .ok css => .ok (cs :: css)

/-- The per-axis chunk-size sequences of one tileset (`axes_tile_sizes`).
Python's `zip` silently truncates to the shorter of the two lists. -/
def axesTileSizes (shape : List Nat) (tileShape : List (Option Nat)) :
    Except BuildError (List (List Nat)) :=
  axesTileSizesGo (shape.zip tileShape)

/-- All chunk coordinates, in `itertools.product(*axes_coords)` order (the
last axis varies fastest), for the given per-axis chunk counts. -/
def prodRanges : List Nat → List (List Nat)
  | [] => [[]]
  | n :: ns => (List.range n).flatMap (fun i => (prodRanges ns).map (fun c => i :: c))

/-- The task graph of one tileset: one entry per chunk coordinate, keyed by
`(param,) + coord`, whose value is
`(get_tile, p_tileset['urlTemplate'], p_axis_names, coord)`. -/
def daskGraph (param urlt : String) (axes : List String) (counts : List Nat) :
    List ((String × List Nat) × TaskValue) :=
  (prodRanges counts).map
    (fun c => ((param, c), TaskValue.mk TileFn.get_tile urlt axes c))

/-- Python `dict` assignment `d[k] = v`: replace the value in place if the
key is present, else append the new binding. -/
def dictInsert (m : List (String × DaskArray)) (k : String) (v : DaskArray) :
    List (String × DaskArray) :=
  if m.any (fun p => p.1 = k) then m.map (fun p => if p.1 = k then (k, v) else p)
  else m ++ [(k, v)]

/-- The body of the tileset loop for one (parameter, tileset) pair: the
result key, and the dask array built from the task graph, the parameter name
and the per-axis chunk-size sequences. -/
def processTileset (param : String) (axisNames : List String) (shape : List Nat)
    (ts : TileSet) : Except BuildError (String × DaskArray) :=
  let key := daKey param ts.tileShape axisNames
  match axesTileSizes shape ts.tileShape with
  | .error e => .error e
  | .ok chunkss =>
    .ok (key, DaskArray.mk
      (daskGraph param ts.urlTemplate axisNames (chunkss.map List.length))
      param chunkss)

/-- The tileset loop: process each tileset in document order and assign the
result into the `dask_arrays` dictionary (later tilesets overwrite earlier
ones that computed the same key). -/
def buildTilesets (param : String) (axisNames : List String) (shape : List Nat) :
    List TileSet → List (String × DaskArray) →
    Except BuildError (List (String × DaskArray))
  | [], acc => .ok acc
  | ts :: rest, acc =>
    match processTileset param axisNames shape ts with
    | .error e => .error e
    | .ok (k, arr) => buildTilesets param axisNames shape rest (dictInsert acc k arr)

/-- Python dictionary lookup `ranges[param]` as an association-list lookup. -/
def rlookup (rs : List (String × RangeDesc)) (p : String) : Option RangeDesc :=
  match rs.find? (fun q => q.1 = p) with
  | none => none
  | some q => some q.2

/-- The parameter loop of `get_dask_arrays`: for each parameter, access
`coverage['ranges'][param]` (either access can raise `KeyError`) and fold the
tileset loop over its tilesets. -/
def buildParams (cov : CoverageDoc) :
    List String → List (String × DaskArray) →
    Except BuildError (List (String × DaskArray))
  | [], acc => .ok acc
  | p :: rest, acc =>
    match cov.ranges with
    | none => .error (BuildError.keyError ("ranges"))
    | some rs =>
      match rlookup rs p with
      | none => .error (BuildError.keyError p)
      | some r =>
        match buildTilesets p r.axisNames r.shape r.tileSets acc with
        | .error e => .error e
        | .ok acc2 => buildParams cov rest acc2

/-- Embedding of `get_dask_arrays` after the document has been fetched and
parsed: enumerate `coverage['parameters'].keys()` and run the parameter
loop starting from the empty dictionary. -/
def get_dask_arrays (cov : CoverageDoc) :
    Except BuildError (List (String × DaskArray)) :=
  match cov.parameters with
  | none => .error (BuildError.keyError ("parameters"))
  | some ps => buildParams cov ps []

/-- The names of the split axes in original axis order, as the spec words
them: the axes whose `tileShape` entry is an integer. -/
def splitNames (tileShape : List (Option Nat)) (axisNames : List String) :
    List String :=
  ((tileShape.zip axisNames).filter (fun p => p.1.isSome)).map Prod.snd

/-- Concatenation of a list of strings in order. -/
def joinStrings : List String → String
  | [] => ""
  | s :: ss => s ++ joinStrings ss

/-! Properties of the per-axis chunk computation. -/

lemma chunkSizes_sum (E T : Nat) (hT : 0 < T) : (chunkSizes E T).sum = E := by
  rcases Nat.eq_zero_or_pos (E % T) with h0 | hpos
  · simp only [chunkSizes, h0, lt_irrefl, if_false, List.append_nil,
      List.sum_replicate, smul_eq_mul]
    exact Nat.div_mul_cancel (Nat.dvd_of_mod_eq_zero h0)
  · simp only [chunkSizes, if_pos hpos, List.sum_append, List.sum_replicate,
      smul_eq_mul, List.sum_cons, List.sum_nil, add_zero]
    exact Nat.div_add_mod' E T

lemma chunkSizes_le (E T : Nat) (hT : 0 < T) : ∀ c ∈ chunkSizes E T, c ≤ T := by
  intro c hc
  rcases List.mem_append.1 hc with h | h
  · exact (List.eq_of_mem_replicate h).le
  · rcases Nat.eq_zero_or_pos (E % T) with h0 | hpos
    · simp [h0] at h
    · simp only [if_pos hpos, List.mem_singleton] at h
      exact h ▸ (Nat.mod_lt E hT).le

lemma chunkSizes_full (E T : Nat) :
    ∀ i (h : i + 1 < (chunkSizes E T).length),
      (chunkSizes E T).get ⟨i, Nat.lt_of_succ_lt h⟩ = T := by
  intro i h
  rcases Nat.eq_zero_or_pos (E % T) with h0 | hpos
  · simp only [chunkSizes, h0, lt_irrefl, if_false, List.append_nil,
      List.get_eq_getElem, List.getElem_replicate]
  · have hlen : (chunkSizes E T).length = E / T + 1 := by
      simp [chunkSizes, if_pos hpos]
    have hi : i < (List.replicate (E / T) T).length := by
      simp only [List.length_replicate]
      omega
    simp only [chunkSizes, if_pos hpos, List.get_eq_getElem,
      List.getElem_append_left hi, List.getElem_replicate]

lemma chunkSizes_length (E T : Nat) (hT : 0 < T) :
    (chunkSizes E T).length = (E + T - 1) / T := by
  have hdm := Nat.div_add_mod E T
  have hmlt : E % T < T := Nat.mod_lt E hT
  rcases Nat.eq_zero_or_pos (E % T) with h0 | hpos
  · have hlen : (chunkSizes E T).length = E / T := by
      simp [chunkSizes, h0]
    have he : E + T - 1 = T * (E / T) + (T - 1) := by omega
    rw [hlen, he, Nat.mul_add_div hT,
      Nat.div_eq_of_lt (show T - 1 < T by omega), add_zero]
  · have hlen : (chunkSizes E T).length = E / T + 1 := by
      simp [chunkSizes, if_pos hpos]
    have h1 : T * (E / T + 1) = T * (E / T) + T := by ring
    have he : E + T - 1 = T * (E / T + 1) + (E % T - 1) := by omega
    rw [hlen, he, Nat.mul_add_div hT,
      Nat.div_eq_of_lt (show E % T - 1 < T by omega), add_zero]

/-- Claim C1: for every axis with positive extent `E` and positive integer
tile size `T`, the builder computes the chunk-size sequence
`floor(E/T)` copies of `T` followed by one chunk of `E mod T` when that
remainder is positive; it sums to exactly `E`, every element is at most `T`,
every element other than the last equals `T` (so at most the last is
strictly below `T`), and its length is `ceil(E/T) = (E + T - 1) / T`. -/
theorem covjson_C1 (E T : Nat) (hE : 0 < E) (hT : 0 < T) :
    axisChunks E (some T) = some (chunkSizes E T)
    ∧ (chunkSizes E T).sum = E
    ∧ (∀ c ∈ chunkSizes E T, c ≤ T)
    ∧ (∀ i (h : i + 1 < (chunkSizes E T).length),
        (chunkSizes E T).get ⟨i, Nat.lt_of_succ_lt h⟩ = T)
    ∧ (chunkSizes E T).length = (E + T - 1) / T := by
  refine ⟨?_, chunkSizes_sum E T hT, chunkSizes_le E T hT,
    chunkSizes_full E T, chunkSizes_length E T hT⟩
  simp [axisChunks, hT.ne']

/-- Witness for C1 at the spec's example axis: extent 10, tile size 3. -/
theorem covjson_C1_witness :
    (chunkSizes 10 3).sum = 10 ∧ (chunkSizes 10 3).length = (10 + 3 - 1) / 3 := by
  have h := covjson_C1 10 3 (by decide) (by decide)
  exact ⟨h.2.1, h.2.2.2.2⟩

/-- Claim C6: an unsplit axis (tileShape entry `None`), or an axis whose tile
size is at least its positive extent, yields the single-element chunk-size
sequence `[E]` — exactly one tile spanning the whole extent. -/
theorem covjson_C6 (E : Nat) (entry : Option Nat) (hE : 0 < E)
    (h : entry = none ∨ ∃ T, entry = some T ∧ E ≤ T) :
    axisChunks E entry = some [E] := by
  have hself : chunkSizes E E = [E] := by
    simp [chunkSizes, Nat.div_self hE, Nat.mod_self, List.replicate_one]
  rcases h with rfl | ⟨T, rfl, hle⟩
  · simp [axisChunks, hE.ne', hself]
  · have hT : 0 < T := lt_of_lt_of_le hE hle
    rcases eq_or_lt_of_le hle with rfl | hlt
    · simp [axisChunks, hT.ne', hself]
    · simp [axisChunks, hT.ne', chunkSizes, Nat.div_eq_of_lt hlt,
        Nat.mod_eq_of_lt hlt, hE]

/-- Witness for C6: tile size 5 over an axis of extent 3 gives one tile. -/
theorem covjson_C6_witness : axisChunks 3 (some 5) = some [3] :=
  covjson_C6 3 (some 5) (by decide) (Or.inr ⟨5, rfl, by decide⟩)

/-! Properties of the chunk-coordinate enumeration and the task graph. -/

lemma length_prodRanges (ns : List Nat) : (prodRanges ns).length = ns.prod := by
  induction ns with
  | nil => simp [prodRanges]
  | cons n ns ih =>
    simp only [prodRanges, List.length_flatMap, Function.comp_def,
      List.length_map, ih, List.map_const', List.length_range,
      List.sum_replicate, smul_eq_mul, List.prod_cons]

lemma mem_prodRanges {ns : List Nat} {c : List Nat} :
    c ∈ prodRanges ns ↔ List.Forall₂ (· < ·) c ns := by
  induction ns generalizing c with
  | nil => simp [prodRanges, List.forall₂_nil_right_iff]
  | cons n ns ih =>
    simp only [prodRanges, List.mem_flatMap, List.mem_range, List.mem_map,
      List.forall₂_cons_right_iff]
    constructor
    · rintro ⟨i, hi, c', hc', rfl⟩
      exact ⟨i, c', hi, ih.1 hc', rfl⟩
    · rintro ⟨i, c', hi, hc', rfl⟩
      exact ⟨i, hi, c', ih.2 hc', rfl⟩

lemma nodup_prodRanges (ns : List Nat) : (prodRanges ns).Nodup := by
  induction ns with
  | nil => simp [prodRanges]
  | cons n ns ih =>
    refine List.nodup_flatMap.2 ⟨fun i _ => ih.map ?_, ?_⟩
    · intro x y hxy
      injection hxy
    · refine List.Pairwise.imp ?_ (List.nodup_range n)
      intro i j hij x hx hy
      rcases List.mem_map.1 hx with ⟨c₁, _, rfl⟩
      rcases List.mem_map.1 hy with ⟨c₂, _, h⟩
      injection h with h1 _
      exact hij h1.symm

/-- Claim C2: the task graph of one tileset has exactly `∏ counts` entries;
its keys are, in order, `(param,) + coord` over the cartesian product of the
per-axis chunk-index ranges (each coordinate within bounds, every tuple
distinct); and each entry's value is the tuple
`(get_tile, urlTemplate, axisNames, coord)` for its own coordinate. -/
theorem covjson_C2 (param urlt : String) (axes : List String) (counts : List Nat) :
    (daskGraph param urlt axes counts).length = counts.prod
    ∧ (daskGraph param urlt axes counts).map Prod.fst
        = (prodRanges counts).map (fun c => (param, c))
    ∧ ((daskGraph param urlt axes counts).map Prod.fst).Nodup
    ∧ (∀ c : List Nat,
        (param, c) ∈ (daskGraph param urlt axes counts).map Prod.fst
          ↔ List.Forall₂ (· < ·) c counts)
    ∧ (∀ kv, kv ∈ daskGraph param urlt axes counts
        → kv.2 = TaskValue.mk TileFn.get_tile urlt axes kv.1.2) := by
  refine ⟨?_, ?_, ?_, ?_, ?_⟩
  · simp [daskGraph, length_prodRanges]
  · simp [daskGraph, List.map_map]
  · rw [daskGraph, List.map_map]
    refine (nodup_prodRanges counts).map ?_
    intro x y hxy
    simpa using congrArg Prod.snd hxy
  · intro c
    rw [daskGraph, List.map_map]
    simp only [List.mem_map, Function.comp_def]
    constructor
    · rintro ⟨c', hc', h⟩
      obtain rfl : c' = c := congrArg Prod.snd h
      exact mem_prodRanges.1 hc'
    · intro h
      exact ⟨c, mem_prodRanges.2 h, rfl⟩
  · intro kv hkv
    rcases List.mem_map.1 hkv with ⟨c, _, rfl⟩
    rfl

/-- Witness for C2: a one-axis graph with two chunks; the entry keyed by
`("p", [1])` carries the loader, the template, the axis names and its own
coordinate. -/
theorem covjson_C2_witness :
    (("p", ([1] : List Nat)),
      TaskValue.mk TileFn.get_tile ("u") ["x"] [1]).2
      = TaskValue.mk TileFn.get_tile ("u") ["x"] [1] := by
  have h := covjson_C2 ("p") ("u") ["x"] [2]
  exact h.2.2.2.2 (("p", [1]), TaskValue.mk TileFn.get_tile ("u") ["x"] [1])
    (by decide)


/-! Properties of the result-key computation. -/

lemma splitNames_cons_some (v : Nat) (ts : List (Option Nat)) (n : String)
    (ns : List String) :
    splitNames (some v :: ts) (n :: ns) = n :: splitNames ts ns := by
  simp [splitNames, List.filter_cons]

lemma splitNames_cons_none (ts : List (Option Nat)) (n : String)
    (ns : List String) :
    splitNames (none :: ts) (n :: ns) = splitNames ts ns := by
  simp [splitNames, List.filter_cons]

lemma axesStr_eq_join (ts : List (Option Nat)) (ns : List String) :
    axesStr ts ns = joinStrings (splitNames ts ns) := by
  induction ts generalizing ns with
  | nil => cases ns <;> simp [axesStr, splitNames, joinStrings]
  | cons t ts ih =>
    cases ns with
    | nil => cases t <;> simp [axesStr, splitNames, joinStrings]
    | cons n ns =>
      cases t with
      | none =>
        rw [show axesStr (none :: ts) (n :: ns) = axesStr ts ns from rfl,
          splitNames_cons_none, ih]
      | some v =>
        rw [show axesStr (some v :: ts) (n :: ns) = n ++ axesStr ts ns from rfl,
          splitNames_cons_some,
          show joinStrings (n :: splitNames ts ns)
            = n ++ joinStrings (splitNames ts ns) from rfl, ih]

lemma axesStr_empty_of_none (ts : List (Option Nat)) (ns : List String)
    (h : ∀ e ∈ ts, e = none) : axesStr ts ns = "" := by
  induction ts generalizing ns with
  | nil => cases ns <;> simp [axesStr]
  | cons t ts ih =>
    have ht : t = none := h t (by simp)
    subst ht
    cases ns with
    | nil => simp [axesStr]
    | cons n ns => exact ih ns (fun e he => h e (by simp [he]))

lemma joinStrings_length (l : List String) :
    (joinStrings l).length = (l.map String.length).sum := by
  induction l with
  | nil => simp [joinStrings]
  | cons s ss ih => simp [joinStrings, String.length_append, ih]

/-- Claim C3: under the data-model invariant (tileShape as long as the axis
name list, axis names non-empty strings), a tileset whose tileShape has no
integer entry gets the result key `param ++ "-untiled"`, and a tileset with
at least one integer entry gets `param ++ "-"` followed by the names of the
split axes concatenated in original axis order followed by `"_tiling"`. -/
theorem covjson_C3 (param : String) (tileShape : List (Option Nat))
    (axisNames : List String) (hlen : tileShape.length = axisNames.length)
    (hne : ∀ n ∈ axisNames, 0 < n.length) :
    ((∀ e ∈ tileShape, e = none) →
      daKey param tileShape axisNames = param ++ "-untiled")
    ∧ ((∃ e ∈ tileShape, e ≠ none) →
      daKey param tileShape axisNames
        = param ++ "-" ++ joinStrings (splitNames tileShape axisNames) ++ "_tiling") := by
  constructor
  · intro h
    simp [daKey, axesStr_empty_of_none tileShape axisNames h]
  · rintro ⟨e, he, hne'⟩
    obtain ⟨⟨i, hi⟩, rfl⟩ := List.get_of_mem he
    have hi' : i < axisNames.length := hlen ▸ hi
    have hzlen : i < (tileShape.zip axisNames).length := by
      rw [List.length_zip]
      exact lt_min hi hi'
    have hpair : (tileShape.zip axisNames).get ⟨i, hzlen⟩
        = (tileShape.get ⟨i, hi⟩, axisNames.get ⟨i, hi'⟩) := by
      simp [List.get_eq_getElem, List.getElem_zip]
    have hmem : axisNames.get ⟨i, hi'⟩ ∈ splitNames tileShape axisNames := by
      refine List.mem_map.2 ⟨(tileShape.get ⟨i, hi⟩, axisNames.get ⟨i, hi'⟩), ?_, rfl⟩
      refine List.mem_filter.2 ⟨hpair ▸ List.get_mem _ _ _, ?_⟩
      simpa using Option.ne_none_iff_isSome.1 hne'
    have hlpos : 0 < (joinStrings (splitNames tileShape axisNames)).length := by
      rw [joinStrings_length]
      have h1 : (axisNames.get ⟨i, hi'⟩).length
          ∈ (splitNames tileShape axisNames).map String.length :=
        List.mem_map.2 ⟨_, hmem, rfl⟩
      have h2 : (axisNames.get ⟨i, hi'⟩).length
          ≤ ((splitNames tileShape axisNames).map String.length).sum :=
        List.single_le_sum (fun x _ => Nat.zero_le x)
          ((axisNames.get ⟨i, hi'⟩).length) h1
      have h3 := hne _ (List.get_mem axisNames i hi')
      omega
    have hkey : daKey param tileShape axisNames
        = if (axesStr tileShape axisNames).length = 0 then param ++ "-untiled"
          else param ++ "-" ++ axesStr tileShape axisNames ++ "_tiling" := rfl
    rw [hkey, axesStr_eq_join, if_neg (by omega)]

/-- Witness for C3 at the spec's example: split axes `["y","x"]` give the
key `"FOO-yx_tiling"`. -/
theorem covjson_C3_witness :
    daKey ("FOO") [some 3, some 3] ["y", "x"] = "FOO-yx_tiling" := by
  have h := covjson_C3 ("FOO") [some 3, some 3] ["y", "x"] (by decide)
    (by decide)
  have h2 := h.2 ⟨some 3, by simp, by simp⟩
  rw [h2]
  rfl

/-! Properties of the tile loader. -/

/-- Claim C4: the fetch URL is formed by folding, over the (axis name, index)
pairs in order, the replacement of every occurrence of the placeholder
`"\x7b" ++ axis ++ "\x7d"` by the decimal string of the index; placeholders of
axes that are not listed are left untouched, extra axis names without a
placeholder are harmless, and repeated placeholders are all replaced. The
spec's example `"http://h/\x7bx\x7d/\x7by\x7d"` with axes `["x","y"]` and
indices `[2,5]` yields `"http://h/2/5"`. -/
theorem covjson_C4 :
    (∀ (t : String) (a : String) (axes : List String) (i : Nat) (idxs : List Nat),
      buildUrl t (a :: axes) (i :: idxs)
        = buildUrl (pyReplace t ("\x7b" ++ a ++ "\x7d") (toString i)) axes idxs)
    ∧ (∀ t : String, ∀ idxs : List Nat, buildUrl t [] idxs = t)
    ∧ buildUrl ("http://h/{x}/{y}") ["x", "y"] [2, 5] = "http://h/2/5"
    ∧ buildUrl ("http://h/{x}/{y}") ["x", "y", "z"] [0, 1, 2] = "http://h/0/1"
    ∧ buildUrl ("http://h/{x}/{q}") ["x", "y"] [2, 5] = "http://h/2/{q}"
    ∧ buildUrl ("http://h/{x}/{x}") ["x"] [7] = "http://h/7/7" := by
  refine ⟨fun t a axes i idxs => rfl, fun t idxs => rfl, ?_, ?_, ?_, ?_⟩
  all_goals decide

/-! Properties of the row-major reshape. -/

lemma ndFlattenList_splitInto {α : Type} (k : Nat) (g : List α → NDA α)
    (hg : ∀ ws : List α, ws.length = k → ndFlatten (g ws) = ws) :
    ∀ (n : Nat) (vs : List α), vs.length = n * k →
      ndFlattenList ((splitInto n k vs).map g) = vs := by
  intro n
  induction n with
  | zero =>
    intro vs hvs
    simp only [Nat.zero_mul, List.length_eq_zero] at hvs
    subst hvs
    simp [splitInto, ndFlattenList]
  | succ m ih =>
    intro vs hvs
    have htake : (vs.take k).length = k := by
      rw [List.length_take]
      have : k ≤ vs.length := by
        rw [hvs]
        calc k = 1 * k := (Nat.one_mul k).symm
        _ ≤ (m + 1) * k := Nat.mul_le_mul_right k (by omega)
      omega
    have hdrop : (vs.drop k).length = m * k := by
      rw [List.length_drop, hvs]
      have h1 : (m + 1) * k = m * k + k := by ring
      omega
    rw [show splitInto (m + 1) k vs = vs.take k :: splitInto m k (vs.drop k) from rfl,
      List.map_cons,
      show ndFlattenList (g (vs.take k) :: (splitInto m k (vs.drop k)).map g)
        = ndFlatten (g (vs.take k)) ++ ndFlattenList ((splitInto m k (vs.drop k)).map g)
        from rfl,
      hg (vs.take k) htake, ih (vs.drop k) hdrop, List.take_append_drop]

lemma flatten_reshapeAux {α : Type} :
    ∀ (shape : List Nat) (vs : List α), shape.prod = vs.length →
      ndFlatten (reshapeAux shape vs) = vs := by
  intro shape
  induction shape with
  | nil =>
    intro vs _
    rfl
  | cons n ns ih =>
    intro vs hvs
    cases ns with
    | nil => rfl
    | cons m ms =>
      rw [show reshapeAux (n :: m :: ms) vs
          = NDA.nest ((splitInto n ((m :: ms).prod) vs).map (reshapeAux (m :: ms)))
          from rfl,
        show ndFlatten (NDA.nest ((splitInto n ((m :: ms).prod) vs).map
          (reshapeAux (m :: ms))))
          = ndFlattenList ((splitInto n ((m :: ms).prod) vs).map (reshapeAux (m :: ms)))
          from rfl]
      refine ndFlattenList_splitInto ((m :: ms).prod) (reshapeAux (m :: ms))
        (fun ws hws => ih ws hws.symm) n vs ?_
      rw [← hvs, List.prod_cons]

/-- Claim C5: numpy-style reshape of the decoded tile succeeds exactly when
the declared shape accounts for the number of values; it is row-major (the
first axis varies slowest, so flattening the result in order recovers the
flat value list); and the spec's example, values `[1,2,3,4]` with shape
`[2,2]`, yields the 2×2 block `[[1,2],[3,4]]`. -/
theorem covjson_C5 :
    (∀ (shape : List Nat) (values : List Int),
      (reshape shape values).isSome = true ↔ shape.prod = values.length)
    ∧ (∀ (shape : List Nat) (values : List Int),
        shape.prod = values.length →
          reshape shape values = some (reshapeAux shape values)
          ∧ ndFlatten (reshapeAux shape values) = values)
    ∧ reshape [2, 2] ([1, 2, 3, 4] : List Int)
        = some (NDA.nest [NDA.vals [1, 2], NDA.vals [3, 4]]) := by
  refine ⟨?_, ?_, rfl⟩
  · intro shape values
    by_cases h : shape.prod = values.length <;> simp [reshape, h]
  · intro shape values h
    exact ⟨by simp [reshape, h], flatten_reshapeAux shape values h⟩

/-- Witness for C5 at the spec's example tile document. -/
theorem covjson_C5_witness :
    reshape [2, 2] ([1, 2, 3, 4] : List Int)
      = some (reshapeAux [2, 2] ([1, 2, 3, 4] : List Int))
    ∧ ndFlatten (reshapeAux [2, 2] ([1, 2, 3, 4] : List Int)) = [1, 2, 3, 4] :=
  covjson_C5.2.1 [2, 2] [1, 2, 3, 4] (by decide)

/-! Behaviour of the builder on malformed and degenerate documents. -/

/-- A document whose only parameter has mismatched metadata lengths:
one axis name, but two shape entries (and a one-entry tileShape). -/
def mismatchDoc : CoverageDoc :=
  CoverageDoc.mk (some ["p"])
    (some [("p", RangeDesc.mk ["x"] [4, 5] [TileSet.mk [some 2] ("u")])])

/-- Counterexample to claim C7: on `mismatchDoc` the lengths of `axisNames`
(1) and `shape` (2) disagree, yet the builder does not fail: Python's `zip`
silently truncates to the common length and a task graph is constructed from
the truncated metadata. -/
theorem covjson_C7_cex :
    ((mismatchDoc.ranges.getD []).map
      (fun r => (r.2.axisNames.length, r.2.shape.length,
        r.2.tileSets.map (fun t => t.tileShape.length)))) = [(1, 2, [1])]
    ∧ get_dask_arrays mismatchDoc
      = Except.ok [("p-x_tiling", DaskArray.mk
          [(("p", [0]), TaskValue.mk TileFn.get_tile ("u") ["x"] [0]),
           (("p", [1]), TaskValue.mk TileFn.get_tile ("u") ["x"] [1])]
          ("p") [[2, 2]])] := by
  constructor
  · rfl
  · rfl

lemma buildParams_isOk_false (cov : CoverageDoc) (p : String)
    (hbad : ∀ rs, cov.ranges = some rs → rlookup rs p = none) :
    ∀ (ps : List String) (acc : List (String × DaskArray)), p ∈ ps →
      (buildParams cov ps acc).isOk = false := by
  intro ps
  induction ps with
  | nil => intro acc h; simp at h
  | cons q rest ih =>
    intro acc hmem
    show (buildParams cov (q :: rest) acc).isOk = false
    rw [buildParams]
    cases hr : cov.ranges with
    | none => rfl
    | some rs =>
      cases hq : rlookup rs q with
      | none => simp only [hq]; rfl
      | some r =>
        cases hb : buildTilesets q r.axisNames r.shape r.tileSets acc with
        | error e => simp only [hq, hb]; rfl
        | ok acc2 =>
          rcases List.mem_cons.1 hmem with rfl | hmem'
          · rw [hbad rs hr] at hq
            exact absurd hq (by simp)
          · simp only [hq, hb]
            exact ih acc2 hmem'

/-- Claim C7, amended: the builder fails fast only for the missing-key
schema errors — an absent top-level `parameters` key, an absent `ranges` key
when at least one parameter must be processed, or a listed parameter missing
from `ranges` (all Python `KeyError`s). Length mismatches between
`axisNames`, `shape` and `tileShape` are NOT detected: the zips truncate and
a task graph is built from the inconsistent metadata (see the
counterexample). -/
theorem covjson_C7 :
    (∀ cov : CoverageDoc, cov.parameters = none →
      get_dask_arrays cov = Except.error (BuildError.keyError ("parameters")))
    ∧ (∀ (cov : CoverageDoc) (ps : List String) (p : String),
        cov.parameters = some ps → p ∈ ps →
        (∀ rs, cov.ranges = some rs → rlookup rs p = none) →
        (get_dask_arrays cov).isOk = false) := by
  constructor
  · intro cov h
    rw [get_dask_arrays, h]
  · intro cov ps p hps hmem hbad
    rw [get_dask_arrays, hps]
    exact buildParams_isOk_false cov p hbad ps [] hmem

/-- Witness for C7 (amended): a document with no `parameters` key fails with
`KeyError`. -/
theorem covjson_C7_witness :
    get_dask_arrays (CoverageDoc.mk none none)
      = Except.error (BuildError.keyError ("parameters")) :=
  covjson_C7.1 (CoverageDoc.mk none none) rfl

/-- Claim C8: the byte fetcher is a thin pass-through boundary. Whatever
transport error the HTTP capability produces for a URL is propagated to the
caller unchanged (never swallowed into bytes, never converted); on success it
returns exactly the response body. -/
theorem covjson_C8 :
    (∀ (httpGet : String → Except TransportError Response) (loc : String)
      (e : TransportError), httpGet loc = Except.error e →
        get_data httpGet loc = Except.error e)
    ∧ (∀ (httpGet : String → Except TransportError Response) (loc : String)
      (r : Response), httpGet loc = Except.ok r →
        get_data httpGet loc = Except.ok r.content) := by
  constructor
  · intro httpGet loc e h
    rw [get_data, h]
  · intro httpGet loc r h
    rw [get_data, h]

/-- Witness for C8: a capability that fails with a DNS error propagates that
very error through `get_data`. -/
theorem covjson_C8_witness :
    get_data (fun _ => Except.error TransportError.dnsFailure) ("http://h/a")
      = Except.error TransportError.dnsFailure :=
  covjson_C8.1 (fun _ => Except.error TransportError.dnsFailure) ("http://h/a")
    TransportError.dnsFailure rfl

/-! Key collisions between tilesets of one parameter. -/

lemma axesStr_congr_mask (ns : List String) :
    ∀ {t1 t2 : List (Option Nat)},
      List.Forall₂ (fun a b => a.isSome = b.isSome) t1 t2 →
      axesStr t1 ns = axesStr t2 ns := by
  induction ns with
  | nil =>
    intro t1 t2 h
    cases h with
    | nil => rfl
    | @cons a b t1' t2' hab hrest => cases a <;> cases b <;> rfl
  | cons n ns ih =>
    intro t1 t2 h
    cases h with
    | nil => rfl
    | @cons a b t1' t2' hab hrest =>
      cases a with
      | none =>
        cases b with
        | none => exact ih hrest
        | some w => simp at hab
      | some v =>
        cases b with
        | none => simp at hab
        | some w =>
          rw [show axesStr (some v :: t1') (n :: ns) = n ++ axesStr t1' ns from rfl,
            show axesStr (some w :: t2') (n :: ns) = n ++ axesStr t2' ns from rfl,
            ih hrest]

/-- A parameter with two fully-unsplit tilesets that differ only in their
URL template: both compute the key `"FOO-untiled"`. -/
def dupDoc : CoverageDoc :=
  CoverageDoc.mk (some ["FOO"])
    (some [("FOO", RangeDesc.mk ["x"] [4]
      [TileSet.mk [none] ("u1"), TileSet.mk [none] ("u2")])])

/-- Claim C9: two tilesets of the same parameter whose tileShapes split the
same set of axes (same `isSome` mask entry-by-entry) compute the same result
key; consequently, on a document whose parameter has two fully-unsplit
tilesets, the returned mapping holds a single entry — the dask array of the
later tileset (URL template `"u2"`), the earlier one having been silently
overwritten — although the document has two (parameter, tileset) pairs. -/
theorem covjson_C9 :
    (∀ (param : String) (axes : List String) (t1 t2 : List (Option Nat)),
      List.Forall₂ (fun a b => a.isSome = b.isSome) t1 t2 →
      daKey param t1 axes = daKey param t2 axes)
    ∧ get_dask_arrays dupDoc
      = Except.ok [("FOO-untiled", DaskArray.mk
          [(("FOO", [0]), TaskValue.mk TileFn.get_tile ("u2") ["x"] [0])]
          ("FOO") [[4]])]
    ∧ ((dupDoc.ranges.getD []).map (fun r => r.2.tileSets.length)).sum = 2 := by
  refine ⟨?_, rfl, rfl⟩
  intro param axes t1 t2 h
  have hs := axesStr_congr_mask axes h
  have h1 : daKey param t1 axes
      = if (axesStr t1 axes).length = 0 then param ++ "-untiled"
        else param ++ "-" ++ axesStr t1 axes ++ "_tiling" := rfl
  have h2 : daKey param t2 axes
      = if (axesStr t2 axes).length = 0 then param ++ "-untiled"
        else param ++ "-" ++ axesStr t2 axes ++ "_tiling" := rfl
  rw [h1, h2, hs]

/-- Witness for C9: tile sizes 2 and 7 on the same single split axis give
the same key. -/
theorem covjson_C9_witness :
    daKey ("p") [some 2] ["x"] = daKey ("p") [some 7] ["x"] :=
  covjson_C9.1 ("p") ["x"] [some 2] [some 7]
    (List.Forall₂.cons rfl List.Forall₂.nil)

/-! Division by zero in the per-axis chunk computation. -/

/-- A tileset declaring a zero tile size on an axis of positive extent. -/
def zeroTileDoc : CoverageDoc :=
  CoverageDoc.mk (some ["p"])
    (some [("p", RangeDesc.mk ["x"] [5] [TileSet.mk [some 0] ("u")])])

/-- An unsplit axis of extent zero: the effective tile size is the extent,
so the division is again by zero. -/
def zeroExtentDoc : CoverageDoc :=
  CoverageDoc.mk (some ["p"])
    (some [("p", RangeDesc.mk ["x"] [0] [TileSet.mk [none] ("u")])])

/-- Claim C10: when every shape extent is positive and every integer
tileShape entry is positive, the per-axis chunk computation never hits the
division by zero (it always produces a chunk list); and without that
precondition a zero tile size, or an unsplit axis of extent zero, aborts the
whole build with `ZeroDivisionError` before any array is returned. -/
theorem covjson_C10 :
    (∀ (E : Nat) (entry : Option Nat), 0 < E →
      (∀ T, entry = some T → 0 < T) →
      (axisChunks E entry).isSome = true)
    ∧ get_dask_arrays zeroTileDoc = Except.error BuildError.zeroDivision
    ∧ get_dask_arrays zeroExtentDoc = Except.error BuildError.zeroDivision := by
  refine ⟨?_, rfl, rfl⟩
  intro E entry hE hpos
  cases entry with
  | none => simp [axisChunks, hE.ne']
  | some T =>
    have hT : 0 < T := hpos T rfl
    simp [axisChunks, hT.ne']

/-- Witness for C10: extent 5 with tile size 3 divides without error. -/
theorem covjson_C10_witness : (axisChunks 5 (some 3)).isSome = true :=
  covjson_C10.1 5 (some 3) (by decide) (fun T h => by
    injection h with h1
    omega)
